import Mathlib

/-!
Shallow embedding of the `did-key.rs` crate (files `src/lib.rs`, `src/p256.rs`,
`src/x25519.rs`) and proofs about its specification claims.

Conventions of the embedding:
* Rust `Vec<u8>` / `[u8]` is `List Nat` with every element `< 256` (stated as a
  hypothesis where it matters); Rust strings are `List Char`.
* Rust `Result<A, String>` together with panicking control flow (`panic!`,
  `todo!`, `unimplemented!`, `unwrap`/`expect`, out-of-bounds indexing) is the
  three-way `Outcome` type below: `ok` for `Ok`, `err` for `Err` values
  returned to the caller, and `abort` for a process panic.  The distinction
  between `err` and `abort` is exactly the distinction between a reported
  error value and a crash.
* External elliptic-curve / pairing arithmetic (the spec's "Algorithm
  Provider") is a parameter record `Provider` of boolean/byte oracles; the
  embedded code never inspects their implementation, mirroring the crates
  (`p256`, `x25519-dalek`, ...) that the repository calls.
-/

/-- Byte strings: each element is intended to be `< 256`. -/
abbrev Bytes := List Nat

/-- Model of `Payload` from `src/lib.rs`: a single buffer or an ordered list of buffers. -/
inductive Payload where
  | Buffer (b : Bytes)
  | BufferArray (bs : List Bytes)
deriving DecidableEq, Repr

/-- Outcome of running a piece of Rust code: a returned `Ok` value, a returned
`Err` value (the `String` payload of `Result<_, String>`), or a panic/abort
(`panic!`, `todo!`, `unimplemented!`, failed `unwrap`/`expect`, slice
out-of-bounds). -/
inductive Outcome (α : Type) where
  | ok (a : α)
  | err (e : String)
  | abort (msg : String)
deriving DecidableEq, Repr

/-- Model of `AsymmetricKey` from `src/lib.rs`, specialised to byte-string contents:
a public key and an optional secret key.  For P-256 the stored public bytes
are the uncompressed SEC1 encoded point (what `to_encoded_point(false)`
yields); for the other algorithms they are the raw public bytes. -/
structure KeyPairM where
  public_key : Bytes
  secret_key : Option Bytes
deriving DecidableEq, Repr

/-- Model of `DIDKeyType` from `src/lib.rs`. -/
inductive DIDKeyType where
  | Ed25519
  | X25519
  | P256
  | Bls12381G1
  | Bls12381G2
deriving DecidableEq, Repr

/-- Model of `DIDKey` from `src/lib.rs`: the tagged union over the per-algorithm pairs. -/
inductive DIDKey where
  | Ed25519 (k : KeyPairM)
  | X25519 (k : KeyPairM)
  | P256 (k : KeyPairM)
  | Bls12381G1 (k : KeyPairM)
  | Bls12381G2 (k : KeyPairM)
deriving DecidableEq, Repr

/-- The algorithm tag of a `DIDKey` value. -/
def DIDKey.tag : DIDKey → DIDKeyType
  | .Ed25519 _ => .Ed25519
  | .X25519 _ => .X25519
  | .P256 _ => .P256
  | .Bls12381G1 _ => .Bls12381G1
  | .Bls12381G2 _ => .Bls12381G2

/-- External curve/pairing arithmetic, the spec's "Algorithm Provider".
Each field models one primitive of the crates the repository delegates to;
the embedding treats them as opaque-to-the-code (but computable) functions. -/
structure Provider where
  /-- Check of `VerifyKey::from_encoded_point`, the curve-membership check (`p256` crate). -/
  p256PointOnCurve : Bytes → Bool
  /-- Decompression of a compressed SEC1 point to the uncompressed form. -/
  p256Decompress : Bytes → Bytes
  /-- Check of `SigningKey::new`, the scalar validity check (`p256` crate). -/
  p256ScalarValid : Bytes → Bool
  /-- Check of `Signature::try_from`, the scalar-range check on a 64-byte candidate. -/
  p256SigScalarsValid : Bytes → Bool
  /-- ECDSA/P-256 verification: public point bytes, payload, signature. -/
  p256SigOk : Bytes → Bytes → Bytes → Bool
  /-- ECDSA/P-256 signing: secret bytes, payload ↦ 64-byte signature. -/
  p256SignBytes : Bytes → Bytes → Bytes
  /-- P-256 public key derivation from a secret seed. -/
  p256DerivePub : Bytes → Bytes
  /-- Diffie-Hellman of `x25519-dalek`: secret bytes, their public bytes. -/
  x25519Dh : Bytes → Bytes → Bytes
  /-- X25519 public key derivation from a secret seed. -/
  x25519DerivePub : Bytes → Bytes
  /-- Ed25519 signature check: public bytes, payload, signature. -/
  ed25519SigOk : Bytes → Bytes → Bytes → Bool
  /-- Ed25519 signing: secret bytes, payload ↦ signature bytes. -/
  ed25519SignBytes : Bytes → Bytes → Bytes
  /-- BLS12-381 signature check: public bytes, payloads, signature. -/
  blsSigOk : Bytes → List Bytes → Bytes → Bool
  /-- BLS12-381 signing: secret bytes, payloads ↦ signature bytes. -/
  blsSignBytes : Bytes → List Bytes → Bytes

/-- A concrete provider instance used for evaluating the embedding at
concrete inputs (witnesses/counterexamples); any `Provider` works in the
general theorems. -/
def trivialProvider : Provider where
  p256PointOnCurve := fun _ => true
  p256Decompress := fun b => b
  p256ScalarValid := fun _ => true
  p256SigScalarsValid := fun _ => true
  p256SigOk := fun _ _ _ => false
  p256SignBytes := fun _ _ => []
  p256DerivePub := fun b => b
  x25519Dh := fun _ _ => []
  x25519DerivePub := fun b => b
  ed25519SigOk := fun _ _ _ => false
  ed25519SignBytes := fun _ _ => []
  blsSigOk := fun _ _ _ => false
  blsSignBytes := fun _ _ => []

/-! Section: base58 (the `bs58` crate, Bitcoin alphabet). -/

/-- The Bitcoin base58 alphabet used by the `bs58` crate. -/
def b58Alphabet : List Char :=
  "123456789ABCDEFGHJKLMNPQRSTUVWXYZabcdefghijkmnopqrstuvwxyz".toList

/-- Digit value `d` (`0 ≤ d < 58`) to its alphabet character. -/
def b58Char (d : Nat) : Char := b58Alphabet.getD d '?'

/-- Character to digit value; `none` for characters outside the alphabet. -/
def b58Digit (c : Char) : Option Nat := b58Alphabet.findIdx? (· = c)

/-- Little-endian base-`b` digits of `n`, with explicit fuel (the fuel is
only there to make the definition structurally recursive; `natDigits` below
instantiates it with `n`, which always suffices). -/
def natDigitsAux (b : Nat) : Nat → Nat → List Nat
  | 0, _ => []
  | f + 1, n => if n = 0 then [] else n % b :: natDigitsAux b f (n / b)

/-- Little-endian base-`b` digits of `n` (empty for `n = 0`). -/
def natDigits (b n : Nat) : List Nat := natDigitsAux b n n

/-- Model of `bs58::encode`: count the leading zero bytes (each becomes a literal
`'1'`), interpret the bytes as a big-endian number and write it in base58,
most significant digit first. -/
def base58encode (bs : Bytes) : List Char :=
  let zeros := (bs.takeWhile (· = 0)).length
  let n := Nat.ofDigits 256 bs.reverse
  List.replicate zeros '1' ++ (natDigits 58 n).reverse.map b58Char

/-- Digit values of a character list; `none` as soon as one character is
outside the alphabet. -/
def b58Digits : List Char → Option (List Nat)
  | [] => some []
  | c :: rest =>
    match b58Digit c, b58Digits rest with
    | some d, some ds => some (d :: ds)
    | _, _ => none

/-- Model of `bs58::decode`: fail on any character outside the alphabet; otherwise
each leading `'1'` becomes a zero byte and the remaining digits are read as
a big-endian base58 number, emitted in big-endian base 256. -/
def base58decode (s : List Char) : Option Bytes :=
  match b58Digits s with
  | none => none
  | some ds =>
    let zeros := (s.takeWhile (· = '1')).length
    let n := Nat.ofDigits 58 ds.reverse
    some (List.replicate zeros 0 ++ (natDigits 256 n).reverse)

/-! Section: URI model (the `url` crate, restricted). -/

/-- Model of a parsed `url::Url`, restricted to what `try_from` consumes:
the scheme, the opaque remainder before any `'#'` (path and query merged),
and the optional fragment.  The model covers non-special schemes and
character material that triggers no percent-encoding or normalisation —
every theorem below applies it only to such inputs. -/
structure UrlM where
  scheme : List Char
  opaquePath : List Char
  fragment : Option (List Char)
deriving DecidableEq, Repr

/-- Characters permitted in a scheme after the first. -/
def isSchemeChar (c : Char) : Bool := c.isAlphanum || c = '+' || c = '-' || c = '.'

/-- Model of `Url::parse`: a nonempty all-lowercase-alpha-led scheme before
the first `':'`, then the opaque remainder, split at the first `'#'` into
path and fragment. -/
def urlParse (s : List Char) : Option UrlM :=
  let sch := s.takeWhile (fun c => c ≠ ':')
  if sch.length = s.length then none
  else if sch.isEmpty then none
  else if ¬ (sch.all isSchemeChar && (sch.headD ' ').isLower) then none
  else
    let after := s.drop (sch.length + 1)
    let before := after.takeWhile (fun c => c ≠ '#')
    if before.length = after.length then some ⟨sch, before, none⟩
    else some ⟨sch, before, some (after.drop (before.length + 1))⟩

/-- Model of `Url::to_string`: reserialise the parts. -/
def urlToString (u : UrlM) : List Char :=
  u.scheme ++ ':' :: u.opaquePath ++ (match u.fragment with | none => [] | some f => '#' :: f)

/-- Model of Rust `str::replace("did:key:", "")`: delete every (leftmost,
non-overlapping) occurrence of the eight characters `did:key:`. -/
def dropKeyTag : List Char → List Char
  | 'd' :: 'i' :: 'd' :: ':' :: 'k' :: 'e' :: 'y' :: ':' :: rest => dropKeyTag rest
  | c :: rest => c :: dropKeyTag rest
  | [] => []

/-- Model of Rust `str::strip_prefix("z")`. -/
def stripZ : List Char → Option (List Char)
  | 'z' :: rest => some rest
  | _ => none

/-! Section: the embedded crate functions. -/

/-- Model of `generate_seed` from `src/lib.rs`.  The process-wide entropy source is
passed in as `rand` (the 32 bytes `getrandom` would produce).  Note the
structure of the source: the `Err("invalid seed size")` branch is only
reachable when `try_into` to `[u8; 32]` fails, which the guard has already
ruled out — seeds of the wrong nonzero length take the random branch. -/
def generate_seed (rand : Bytes) (initial_seed : Bytes) : Outcome Bytes :=
  if initial_seed.isEmpty || initial_seed.length ≠ 32 then .ok rand
  else if initial_seed.length = 32 then .ok initial_seed
  else .err "invalid seed size"

/-- Shape check performed by `EncodedPoint::from_bytes` of the `p256` crate:
a SEC1 uncompressed (65 bytes, tag `0x04`) or compressed (33 bytes, tag
`0x02`/`0x03`) point encoding. -/
def sec1ShapeOk (pk : Bytes) : Bool :=
  (pk.length = 65 && pk.headD 0 = 4) ||
    (pk.length = 33 && (pk.headD 0 = 2 || pk.headD 0 = 3))

/-- Model of `P256KeyPair::from_public_key` from `src/p256.rs`: a 65-byte input is
used as is, anything else gets `0x04` prepended; the result must parse as a
SEC1 point on the curve (`expect("invalid key")` / `expect("invalid point")`
panic otherwise).  The stored public bytes are the uncompressed encoding
(`to_encoded_point(false)`), so a compressed input goes through the
provider's decompression. -/
def p256_from_public_key (P : Provider) (public_key : Bytes) : Outcome DIDKey :=
  let pk := if public_key.length = 65 then public_key else 0x04 :: public_key
  if sec1ShapeOk pk then
    if P.p256PointOnCurve pk then
      .ok (.P256 ⟨if pk.length = 65 then pk else P.p256Decompress pk, none⟩)
    else .abort "invalid point"
  else .abort "invalid key"

/-- Model of `X25519KeyPair::from_public_key` from `src/x25519.rs`:
`clone_from_slice` into a `[u8; 32]` panics unless the input has length
exactly 32. -/
def x25519_from_public_key (public_key : Bytes) : Outcome DIDKey :=
  if public_key.length = 32 then .ok (.X25519 ⟨public_key, none⟩)
  else .abort "clone_from_slice: length mismatch"

/-- Modelled from the spec: `ed25519.rs` is not under `src/`.  §4.1 says
`from_public_bytes` "constructs a public-only pair; fails with an encoding
error if the byte length/structure is invalid for the algorithm"; Ed25519
public keys are 32 bytes, and (as in the sibling adapters, whose
constructors return `Self` rather than `Result`) the failure is an abort. -/
def ed25519_from_public_key (public_key : Bytes) : Outcome DIDKey :=
  if public_key.length = 32 then .ok (.Ed25519 ⟨public_key, none⟩)
  else .abort "invalid key"

/-- Model of `DIDKey::from_public_key` from `src/lib.rs`; the BLS12-381 arms are
`todo!()`, i.e. a panic with message "not yet implemented". -/
def from_public_key (P : Provider) (key_type : DIDKeyType) (seed : Bytes) : Outcome DIDKey :=
  match key_type with
  | .Ed25519 => ed25519_from_public_key seed
  | .X25519 => x25519_from_public_key seed
  | .P256 => p256_from_public_key P seed
  | .Bls12381G1 => .abort "not yet implemented"
  | .Bls12381G2 => .abort "not yet implemented"

/-- Model of `DIDKey::public_key` from `src/lib.rs`.  For P-256 the stored bytes of
the model are already the uncompressed point encoding, which is what
`to_encoded_point(false).as_bytes()` returns. -/
def DIDKey.public_key : DIDKey → Bytes
  | .Ed25519 k => k.public_key
  | .X25519 k => k.public_key
  | .P256 k => k.public_key
  | .Bls12381G1 k => k.public_key
  | .Bls12381G2 k => k.public_key

/-- The per-variant multicodec bytes of `DIDKey::fingerprint` in `src/lib.rs`. -/
def DIDKey.codec : DIDKey → Bytes
  | .Ed25519 _ => [0xed, 0x1]
  | .X25519 _ => [0xec, 0x1]
  | .P256 _ => [0x12, 0x0, 0x1]
  | .Bls12381G1 _ => [0xea, 0x1]
  | .Bls12381G2 _ => [0xeb, 0x1]

/-- Model of `DIDKey::fingerprint` from `src/lib.rs`: `'z'` plus the base58 encoding
of codec bytes followed by the public key bytes. -/
def DIDKey.fingerprint (k : DIDKey) : List Char :=
  'z' :: base58encode (k.codec ++ k.public_key)

/-- Decoding part of `impl TryFrom<String> for DIDKey` from `src/lib.rs` (the
code after the encoded-key text has been derived).  The Rust `match` on the
slice `pub_key[0..2]` is a sequence of byte comparisons, rendered here as an
if-chain in source order; slice indexing `pub_key[0..2]` panics when fewer
than two bytes decoded, and `pub_key[3..]` panics when the P-256 arm sees
exactly two; the catch-all arm is `unimplemented!("unsupported key type")`,
which panics with the message "not implemented: unsupported key type". -/
def decodePipeline (P : Provider) (txt : List Char) : Outcome DIDKey :=
  match stripZ txt with
    | none => .err "invalid URI data"
    | some b58txt =>
      match base58decode b58txt with
      | none => .err "invalid base58 encoded data in DID URI"
      | some pub_key =>
        if pub_key.length < 2 then .abort "index out of bounds"
        else
          let a := pub_key.headD 0
          let b := pub_key.tail.headD 0
          if a = 0xed ∧ b = 0x01 then from_public_key P .Ed25519 (pub_key.drop 2)
          else if a = 0xec ∧ b = 0x01 then from_public_key P .X25519 (pub_key.drop 2)
          else if a = 0xea ∧ b = 0x01 then from_public_key P .Bls12381G1 (pub_key.drop 2)
          else if a = 0xeb ∧ b = 0x01 then from_public_key P .Bls12381G2 (pub_key.drop 2)
          else if a = 0x12 ∧ b = 0x00 then
            if pub_key.length < 3 then .abort "index out of bounds"
            else from_public_key P .P256 (pub_key.drop 3)
          else .abort "not implemented: unsupported key type"

/-- Text the resolver hands to the decode pipeline: the fragment when one is
present, otherwise the whole serialisation with every occurrence of
`did:key:` deleted (`src/lib.rs`, lines 168-171). -/
def resolveText (url : UrlM) : List Char :=
  match url.fragment with
  | some f => f
  | none => dropKeyTag (urlToString url)

/-- Model of the body of `impl TryFrom<String> for DIDKey` from `src/lib.rs`:
parse the URI, derive the encoded-key text, then run the decode pipeline. -/
def tryFrom (P : Provider) (did_uri : List Char) : Outcome DIDKey :=
  match urlParse did_uri with
  | none => .err "couldn't parse DID URI"
  | some url => decodePipeline P (resolveText url)

/-- Model of `DIDKey::resolve` from `src/lib.rs`: delegates to `TryFrom<String>`. -/
def DIDKey.resolve (P : Provider) (did_uri : List Char) : Outcome DIDKey :=
  tryFrom P did_uri

/-! Section: sign, verify and key exchange. -/

/-- Model of `Ecdsa::sign` for `P256KeyPair` from `src/p256.rs`: single buffers only
(`unimplemented!` otherwise); a missing secret key is
`panic!("secret key not found")`. -/
def p256_sign (P : Provider) (k : KeyPairM) (payload : Payload) : Outcome Bytes :=
  match payload with
  | .Buffer p =>
    match k.secret_key with
    | some sk => .ok (P.p256SignBytes sk p)
    | none => .abort "secret key not found"
  | .BufferArray _ => .abort "not implemented: payload type not supported for this key"

/-- Model of `Ecdsa::verify` for `P256KeyPair` from `src/p256.rs`:
`Signature::try_from(signature).unwrap()` panics unless the bytes are a
64-byte pair of in-range scalars; only then is the curve verification run,
a mismatch becoming `Err("invalid signature")`. -/
def p256_verify (P : Provider) (k : KeyPairM) (payload : Payload) (signature : Bytes) :
    Outcome Unit :=
  match payload with
  | .Buffer p =>
    if signature.length = 64 && P.p256SigScalarsValid signature then
      if P.p256SigOk k.public_key p signature then .ok () else .err "invalid signature"
    else .abort "called `Result::unwrap()` on an `Err` value"
  | .BufferArray _ => .abort "not implemented: payload type not supported for this key"

/-- Modelled from the spec: `ed25519.rs` is not under `src/`.  §4.1's sign
contract ("requires secret key present; signals a capability error
otherwise"), combined with the `Ecdsa` trait in `src/lib.rs` whose `sign`
returns plain bytes so a capability failure can only abort. -/
def ed25519_sign (P : Provider) (k : KeyPairM) (payload : Payload) : Outcome Bytes :=
  match payload with
  | .Buffer p =>
    match k.secret_key with
    | some sk => .ok (P.ed25519SignBytes sk p)
    | none => .abort "secret key not found"
  | .BufferArray _ => .abort "not implemented: payload type not supported for this key"

/-- Modelled from the spec: `ed25519.rs` is not under `src/`.  §4.1's verify
contract: pure in the public key, malformed signature bytes are themselves
a verify failure, never a panic. -/
def ed25519_verify (P : Provider) (k : KeyPairM) (payload : Payload) (signature : Bytes) :
    Outcome Unit :=
  match payload with
  | .Buffer p =>
    if P.ed25519SigOk k.public_key p signature then .ok () else .err "invalid signature"
  | .BufferArray _ => .abort "not implemented: payload type not supported for this key"

/-- Payload bytes as the list of buffers a BLS signature covers. -/
def Payload.buffers : Payload → List Bytes
  | .Buffer b => [b]
  | .BufferArray bs => bs

/-- Modelled from the spec: `bls12381.rs` is not under `src/`.  §3 allows
pairing-based keys to sign multiple messages atomically; a missing secret
key is a capability abort as in the other adapters. -/
def bls_sign (P : Provider) (k : KeyPairM) (payload : Payload) : Outcome Bytes :=
  match k.secret_key with
  | some sk => .ok (P.blsSignBytes sk payload.buffers)
  | none => .abort "secret key not found"

/-- Modelled from the spec: `bls12381.rs` is not under `src/`. -/
def bls_verify (P : Provider) (k : KeyPairM) (payload : Payload) (signature : Bytes) :
    Outcome Unit :=
  if P.blsSigOk k.public_key payload.buffers signature then .ok ()
  else .err "invalid signature"

/-- Model of `DIDKey::sign` from `src/lib.rs`; the X25519 arm is the catch-all
`unimplemented!()`. -/
def DIDKey.sign (P : Provider) (k : DIDKey) (payload : Payload) : Outcome Bytes :=
  match k with
  | .Ed25519 x => ed25519_sign P x payload
  | .P256 x => p256_sign P x payload
  | .Bls12381G1 x => bls_sign P x payload
  | .Bls12381G2 x => bls_sign P x payload
  | .X25519 _ => .abort "not implemented"

/-- Model of `DIDKey::verify` from `src/lib.rs`: dispatch, then
`.map_or(false, |()| true)` — an `Ok(())` becomes `true`, an `Err` becomes
`false`, and a panic in the adapter propagates. -/
def DIDKey.verify (P : Provider) (k : DIDKey) (payload : Payload) (signature : Bytes) :
    Outcome Bool :=
  match
    (match k with
     | .Ed25519 x => ed25519_verify P x payload signature
     | .P256 x => p256_verify P x payload signature
     | .Bls12381G1 x => bls_verify P x payload signature
     | .Bls12381G2 x => bls_verify P x payload signature
     | .X25519 _ => .abort "not implemented")
  with
  | .ok () => .ok true
  | .err _ => .ok false
  | .abort m => .abort m

/-- Model of `DIDKey::key_exchange` from `src/lib.rs`: X25519×X25519 delegates to
`Ecdh::key_exchange` in `src/x25519.rs` (which panics when the own secret
key is absent), P256×P256 is `todo!()`, and every other pairing is the
catch-all `unimplemented!()`. -/
def DIDKey.key_exchange (P : Provider) (k key : DIDKey) : Outcome Bytes :=
  match k, key with
  | .X25519 sk, .X25519 pk =>
    match sk.secret_key with
    | some x => .ok (P.x25519Dh x pk.public_key)
    | none => .abort "secret key not present"
  | .P256 _, .P256 _ => .abort "not yet implemented"
  | _, _ => .abort "not implemented"

/-! Section: validity predicates and concrete test material. -/

/-- Validity of the stored public key bytes, per algorithm: raw 32 bytes for
Ed25519 and X25519; for P-256 an uncompressed SEC1 point (65 bytes, leading
`0x04`) accepted by the provider's curve check.  No byte-level validity is
checkable for the BLS variants (their adapter is not constructible through
`from_public_key`, which is `todo!()`). -/
def validPublicKey (P : Provider) : DIDKey → Bool
  | .Ed25519 k => k.public_key.length = 32 && k.public_key.all (· < 256)
  | .X25519 k => k.public_key.length = 32 && k.public_key.all (· < 256)
  | .P256 k => k.public_key.length = 65 && k.public_key.headD 0 = 4 &&
      k.public_key.all (· < 256) && P.p256PointOnCurve k.public_key
  | .Bls12381G1 k => k.public_key.all (· < 256)
  | .Bls12381G2 k => k.public_key.all (· < 256)

/-- Affine x-coordinate of the NIST P-256 base point, big-endian. -/
def p256Gx : Bytes :=
  [0x6b, 0x17, 0xd1, 0xf2, 0xe1, 0x2c, 0x42, 0x47, 0xf8, 0xbc, 0xe6, 0xe5,
   0x63, 0xa4, 0x40, 0xf2, 0x77, 0x03, 0x7d, 0x81, 0x2d, 0xeb, 0x33, 0xa0,
   0xf4, 0xa1, 0x39, 0x45, 0xd8, 0x98, 0xc2, 0x96]

/-- Affine y-coordinate of the NIST P-256 base point, big-endian. -/
def p256Gy : Bytes :=
  [0x4f, 0xe3, 0x42, 0xe2, 0xfe, 0x1a, 0x7f, 0x9b, 0x8e, 0xe7, 0xeb, 0x4a,
   0x7c, 0x0f, 0x9e, 0x16, 0x2b, 0xce, 0x33, 0x57, 0x6b, 0x31, 0x5e, 0xce,
   0xcb, 0xb6, 0x40, 0x68, 0x37, 0xbf, 0x51, 0xf5]

/-- Uncompressed SEC1 encoding of the NIST P-256 base point (a genuine
on-curve point, 65 bytes). -/
def p256Gen : Bytes := 0x04 :: (p256Gx ++ p256Gy)

/-! Section: facts about the base58 codec. -/

theorem natDigitsAux_eq_digits (b : Nat) (hb : 2 ≤ b) :
    ∀ f n, n ≤ f → natDigitsAux b f n = Nat.digits b n := by
  intro f
  induction f with
  | zero =>
    intro n hn
    have h0 : n = 0 := Nat.le_zero.mp hn
    subst h0
    simp [natDigitsAux]
  | succ f ih =>
    intro n hn
    by_cases h0 : n = 0
    · subst h0; simp [natDigitsAux]
    · have hdiv : n / b ≤ f := by
        have h1 : n / b < n := Nat.div_lt_self (Nat.pos_of_ne_zero h0) (by omega)
        omega
      rw [show natDigitsAux b (f + 1) n = n % b :: natDigitsAux b f (n / b) by
            simp [natDigitsAux, h0],
        ih (n / b) hdiv,
        Nat.digits_def' (by omega : 1 < b) (Nat.pos_of_ne_zero h0)]

theorem natDigits_eq_digits (b : Nat) (hb : 2 ≤ b) (n : Nat) :
    natDigits b n = Nat.digits b n :=
  natDigitsAux_eq_digits b hb n n le_rfl

theorem b58Digit_b58Char : ∀ d, d < 58 → b58Digit (b58Char d) = some d := by decide

theorem b58Char_ne_one : ∀ d, d < 58 → d ≠ 0 → b58Char d ≠ '1' := by decide

theorem b58Digits_map (l : List Nat) (h : ∀ d ∈ l, d < 58) :
    b58Digits (l.map b58Char) = some l := by
  induction l with
  | nil => rfl
  | cons d t ih =>
    have hd : d < 58 := h d (.head _)
    have ht : ∀ x ∈ t, x < 58 := fun x hx => h x (.tail _ hx)
    simp [b58Digits, b58Digit_b58Char d hd, ih ht]

theorem b58Digits_mem :
    ∀ {s : List Char} {l : List Nat}, b58Digits s = some l → ∀ c ∈ s, (b58Digit c).isSome := by
  intro s
  induction s with
  | nil => intro l _ c hc; cases hc
  | cons a t ih =>
    intro l h c hc
    cases hfa : b58Digit a with
    | none => rw [b58Digits, hfa] at h; simp at h
    | some v =>
      cases hmt : b58Digits t with
      | none => rw [b58Digits, hfa, hmt] at h; simp at h
      | some l' =>
        cases hc with
        | head => simp [hfa]
        | tail _ hct => exact ih hmt c hct

theorem base58_roundtrip (bs : Bytes) (h : ∀ x ∈ bs, x < 256) (hh : bs.head? ≠ some 0) :
    base58decode (base58encode bs) = some bs := by
  cases bs with
  | nil => decide
  | cons c t =>
    have hc : c ≠ 0 := fun h0 => hh (by simp [h0])
    have hlt : ∀ x ∈ (c :: t).reverse, x < 256 := fun x hx => h x (List.mem_reverse.mp hx)
    have hlast : ∀ h' : (c :: t).reverse ≠ [], ((c :: t).reverse).getLast h' ≠ 0 := by
      intro h'
      have h1 : ((c :: t).reverse).getLast? = some (((c :: t).reverse).getLast h') :=
        List.getLast?_eq_getLast _ h'
      rw [List.getLast?_reverse] at h1
      simp only [List.head?_cons, Option.some.injEq] at h1
      rw [← h1]
      exact hc
    have hdig : Nat.digits 256 (Nat.ofDigits 256 (c :: t).reverse) = (c :: t).reverse :=
      Nat.digits_ofDigits 256 (by norm_num) _ hlt hlast
    have hn0 : Nat.ofDigits 256 (c :: t).reverse ≠ 0 := by
      intro h0
      rw [h0, Nat.digits_zero] at hdig
      exact absurd hdig.symm (by simp)
    have hzeros : (c :: t).takeWhile (fun x => x = 0) = [] :=
      List.takeWhile_cons_of_neg (by simpa using hc)
    have hD58 : ∀ d ∈ Nat.digits 58 (Nat.ofDigits 256 (c :: t).reverse), d < 58 :=
      fun d hd => Nat.digits_lt_base (by norm_num) hd
    have hDne : Nat.digits 58 (Nat.ofDigits 256 (c :: t).reverse) ≠ [] :=
      Nat.digits_ne_nil_iff_ne_zero.mpr hn0
    have hDlast : (Nat.digits 58 (Nat.ofDigits 256 (c :: t).reverse)).getLast hDne ≠ 0 :=
      Nat.getLast_digit_ne_zero 58 hn0
    have henc : base58encode (c :: t) =
        ((Nat.digits 58 (Nat.ofDigits 256 (c :: t).reverse)).reverse.map b58Char) := by
      simp [base58encode, hzeros, natDigits_eq_digits 58 (by norm_num)]
    have hdigs :
        b58Digits ((Nat.digits 58 (Nat.ofDigits 256 (c :: t).reverse)).reverse.map b58Char) =
          some (Nat.digits 58 (Nat.ofDigits 256 (c :: t).reverse)).reverse :=
      b58Digits_map _ (fun d hd => hD58 d (List.mem_reverse.mp hd))
    have hts :
        ((Nat.digits 58 (Nat.ofDigits 256 (c :: t).reverse)).reverse.map b58Char).takeWhile
          (fun x => x = '1') = [] := by
      cases hsrev : (Nat.digits 58 (Nat.ofDigits 256 (c :: t).reverse)).reverse with
      | nil => exact absurd (by simpa using congrArg List.length hsrev) (by simpa using hDne)
      | cons d0 rest =>
        have hd0 : d0 = (Nat.digits 58 (Nat.ofDigits 256 (c :: t).reverse)).getLast hDne := by
          have h1 := List.head?_reverse (Nat.digits 58 (Nat.ofDigits 256 (c :: t).reverse))
          rw [hsrev] at h1
          have h2 := List.getLast?_eq_getLast
            (Nat.digits 58 (Nat.ofDigits 256 (c :: t).reverse)) hDne
          rw [h2] at h1
          simpa using h1
        have hmem : d0 ∈ Nat.digits 58 (Nat.ofDigits 256 (c :: t).reverse) :=
          List.mem_reverse.mp (by rw [hsrev]; exact .head _)
        have h1 : b58Char d0 ≠ '1' := b58Char_ne_one d0 (hD58 d0 hmem) (hd0 ▸ hDlast)
        simp [hsrev, List.takeWhile_cons_of_neg, h1]
    rw [henc]
    simp only [base58decode, hdigs, hts]
    rw [List.reverse_reverse, Nat.ofDigits_digits, natDigits_eq_digits 256 (by norm_num)]
    simpa using hdig

/-! Section: facts about the URI handling. -/

theorem isSchemeChar_ne_colon {c : Char} (h : isSchemeChar c = true) : c ≠ ':' := by
  intro h'
  subst h'
  exact absurd h (by decide)

theorem takeWhile_append_stop {α : Type} {p : α → Bool} (s : List α) {a : α} (r : List α)
    (hs : ∀ c ∈ s, p c = true) (ha : p a = false) :
    (s ++ a :: r).takeWhile p = s := by
  induction s with
  | nil => simp [List.takeWhile_cons_of_neg, ha]
  | cons x xs ih =>
    have hx : p x = true := hs x (.head _)
    simp only [List.cons_append, List.takeWhile_cons_of_pos hx,
      ih (fun c hc => hs c (.tail _ hc))]

theorem urlParse_nofrag (s p0 : List Char) (hs0 : s ≠ [])
    (hs1 : s.all isSchemeChar = true) (hs2 : (s.headD ' ').isLower = true)
    (hp : ∀ c ∈ p0, c ≠ '#') :
    urlParse (s ++ (':' :: p0)) = some ⟨s, p0, none⟩ := by
  have hcol : (s ++ (':' :: p0)).takeWhile (fun c => decide (c ≠ ':')) = s :=
    takeWhile_append_stop s p0
      (fun c hc => by
        simpa using isSchemeChar_ne_colon (List.all_eq_true.mp hs1 c hc))
      (by simp)
  have hdrop : (s ++ (':' :: p0)).drop (s.length + 1) = p0 := by
    rw [show s ++ (':' :: p0) = (s ++ [':']) ++ p0 by simp]
    exact List.drop_left' (by simp)
  have hbefore : p0.takeWhile (fun c => decide (c ≠ '#')) = p0 :=
    List.takeWhile_eq_self_iff.mpr (fun c hc => by simpa using hp c hc)
  have hempty : s.isEmpty = false := by
    cases s with
    | nil => exact absurd rfl hs0
    | cons a t => rfl
  simp only [urlParse, hcol, hdrop, hbefore]
  rw [if_neg (by simp only [List.length_append, List.length_cons]; omega),
    if_neg (by simp [hempty]),
    if_neg (by simp [hs1]; simpa using hs2)]
  simp

theorem urlParse_frag (s p0 f : List Char) (hs0 : s ≠ [])
    (hs1 : s.all isSchemeChar = true) (hs2 : (s.headD ' ').isLower = true)
    (hp : ∀ c ∈ p0, c ≠ '#') :
    urlParse (s ++ (':' :: (p0 ++ ('#' :: f)))) = some ⟨s, p0, some f⟩ := by
  have hcol : (s ++ (':' :: (p0 ++ ('#' :: f)))).takeWhile (fun c => decide (c ≠ ':')) = s :=
    takeWhile_append_stop s (p0 ++ ('#' :: f))
      (fun c hc => by
        simpa using isSchemeChar_ne_colon (List.all_eq_true.mp hs1 c hc))
      (by simp)
  have hdrop : (s ++ (':' :: (p0 ++ ('#' :: f)))).drop (s.length + 1) = p0 ++ ('#' :: f) := by
    rw [show s ++ (':' :: (p0 ++ ('#' :: f))) = (s ++ [':']) ++ (p0 ++ ('#' :: f)) by simp]
    exact List.drop_left' (by simp)
  have hbefore : (p0 ++ ('#' :: f)).takeWhile (fun c => decide (c ≠ '#')) = p0 :=
    takeWhile_append_stop p0 f (fun c hc => by simpa using hp c hc) (by simp)
  have hdrop2 : (p0 ++ ('#' :: f)).drop (p0.length + 1) = f := by
    rw [show p0 ++ ('#' :: f) = (p0 ++ ['#']) ++ f by simp]
    exact List.drop_left' (by simp)
  have hempty : s.isEmpty = false := by
    cases s with
    | nil => exact absurd rfl hs0
    | cons a t => rfl
  simp only [urlParse, hcol, hdrop, hbefore]
  rw [if_neg (by simp only [List.length_append, List.length_cons]; omega),
    if_neg (by simp [hempty]),
    if_neg (by simp [hs1]; simpa using hs2),
    if_neg (by simp only [List.length_append, List.length_cons]; omega),
    hdrop2]

theorem dropKeyTag_start (t : List Char) :
    dropKeyTag ('d' :: 'i' :: 'd' :: ':' :: 'k' :: 'e' :: 'y' :: ':' :: t) = dropKeyTag t := rfl

theorem dropKeyTag_no_colon (t : List Char) (h : ∀ c ∈ t, c ≠ ':') : dropKeyTag t = t := by
  induction t using dropKeyTag.induct with
  | case1 rest ih =>
    exact absurd rfl (h ':' (by simp))
  | case2 c rest hne ih =>
    rw [dropKeyTag.eq_2 c rest hne, ih (fun x hx => h x (.tail _ hx))]
  | case3 => rfl

theorem b58DigitSome_ne_colon {c : Char} (h : (b58Digit c).isSome = true) : c ≠ ':' := by
  intro h'
  subst h'
  exact absurd h (by decide)

theorem b58DigitSome_ne_hash {c : Char} (h : (b58Digit c).isSome = true) : c ≠ '#' := by
  intro h'
  subst h'
  exact absurd h (by decide)

theorem b58Char_mem_alphabet : ∀ d, d < 58 → b58Char d ∈ b58Alphabet := by decide

theorem base58encode_mem {bs : Bytes} {c : Char} (hc : c ∈ base58encode bs) :
    c ∈ b58Alphabet := by
  simp only [base58encode] at hc
  rcases List.mem_append.mp hc with h | h
  · rw [List.eq_of_mem_replicate h]
    decide
  · rcases List.mem_map.mp h with ⟨d, hd, rfl⟩
    exact b58Char_mem_alphabet d
      (Nat.digits_lt_base (by norm_num)
        (by
          rw [natDigits_eq_digits 58 (by norm_num)] at hd
          exact List.mem_reverse.mp hd))

theorem b58Alphabet_ne_colon : ∀ c ∈ b58Alphabet, c ≠ ':' := by decide

theorem b58Alphabet_ne_hash : ∀ c ∈ b58Alphabet, c ≠ '#' := by decide

theorem tryFrom_didkey (P : Provider) (t : List Char)
    (h1 : ∀ c ∈ t, c ≠ ':') (h2 : ∀ c ∈ t, c ≠ '#') :
    tryFrom P ("did:key:".toList ++ t) = decodePipeline P t := by
  have hp : ∀ c ∈ (['k', 'e', 'y', ':'] : List Char) ++ t, c ≠ '#' := by
    intro c hc
    rcases List.mem_append.mp hc with h | h
    · simp at h
      rcases h with rfl | rfl | rfl | rfl <;> decide
    · exact h2 c h
  have hparse := urlParse_nofrag ['d', 'i', 'd'] (['k', 'e', 'y', ':'] ++ t)
    (by decide) (by decide) (by decide) hp
  rw [show "did:key:".toList ++ t =
      ['d', 'i', 'd'] ++ (':' :: ((['k', 'e', 'y', ':'] : List Char) ++ t)) from rfl]
  simp only [tryFrom, hparse]
  have htxt : resolveText ⟨['d', 'i', 'd'], ['k', 'e', 'y', ':'] ++ t, none⟩ = t := by
    have e : urlToString ⟨['d', 'i', 'd'], ['k', 'e', 'y', ':'] ++ t, none⟩ =
        'd' :: 'i' :: 'd' :: ':' :: 'k' :: 'e' :: 'y' :: ':' :: t := by
      simp [urlToString]
    simp only [resolveText, e, dropKeyTag_start, dropKeyTag_no_colon t h1]
  rw [htxt]

theorem tryFrom_frag (P : Provider) (s p t : List Char) (hs0 : s ≠ [])
    (hs1 : s.all isSchemeChar = true) (hs2 : (s.headD ' ').isLower = true)
    (hp : ∀ c ∈ p, c ≠ '#') :
    tryFrom P (s ++ (':' :: (p ++ ('#' :: t)))) = decodePipeline P t := by
  simp only [tryFrom, urlParse_frag s p t hs0 hs1 hs2 hp, resolveText]

theorem tryFrom_didkey_frag (P : Provider) (u t : List Char) (hu : ∀ c ∈ u, c ≠ '#') :
    tryFrom P ("did:key:".toList ++ (u ++ ('#' :: t))) = decodePipeline P t := by
  have hp : ∀ c ∈ (['k', 'e', 'y', ':'] : List Char) ++ u, c ≠ '#' := by
    intro c hc
    rcases List.mem_append.mp hc with h | h
    · simp at h
      rcases h with rfl | rfl | rfl | rfl <;> decide
    · exact hu c h
  have := tryFrom_frag P ['d', 'i', 'd'] (['k', 'e', 'y', ':'] ++ u) t
    (by decide) (by decide) (by decide) hp
  rw [show "did:key:".toList ++ (u ++ ('#' :: t)) =
      ['d', 'i', 'd'] ++ (':' :: (((['k', 'e', 'y', ':'] : List Char) ++ u) ++ ('#' :: t)))
    from rfl]
  exact this

/-! Section: character facts about fingerprints. -/

theorem fingerprint_ne_colon (k : DIDKey) : ∀ c ∈ k.fingerprint, c ≠ ':' := by
  intro c hc
  rcases List.mem_cons.mp hc with rfl | h
  · decide
  · exact b58Alphabet_ne_colon c (base58encode_mem h)

theorem fingerprint_ne_hash (k : DIDKey) : ∀ c ∈ k.fingerprint, c ≠ '#' := by
  intro c hc
  rcases List.mem_cons.mp hc with rfl | h
  · decide
  · exact b58Alphabet_ne_hash c (base58encode_mem h)

/-! Section: the claim theorems. -/

/-- C1 (amended): for every supported algorithm whose `from_public_key`
constructor is implemented (Ed25519, X25519, P-256) and every valid public
key, resolving `did:key:` ++ `fingerprint(k)` yields a key of the same
variant with identical `public_key()` bytes.  For the two BLS12-381
variants the codec-level decoding still recovers the tag and bytes, but
resolution aborts in the `todo!()` arm of `from_public_key` instead of
producing a key (see the counterexample). -/
theorem c1_fingerprint_roundtrip (P : Provider) (k : DIDKey)
    (hval : validPublicKey P k = true)
    (htag : k.tag ≠ DIDKeyType.Bls12381G1 ∧ k.tag ≠ DIDKeyType.Bls12381G2) :
    ∃ k' : DIDKey, tryFrom P ("did:key:".toList ++ k.fingerprint) = Outcome.ok k' ∧
      k'.tag = k.tag ∧ k'.public_key = k.public_key := by
  cases k with
  | Ed25519 kp =>
    simp only [validPublicKey, Bool.and_eq_true, decide_eq_true_eq,
      List.all_eq_true] at hval
    obtain ⟨hlen, hlt⟩ := hval
    have hlt' : ∀ x ∈ kp.public_key, x < 256 := fun x hx => by simpa using hlt x hx
    refine ⟨DIDKey.Ed25519 ⟨kp.public_key, none⟩, ?_, rfl, rfl⟩
    rw [tryFrom_didkey P _ (fingerprint_ne_colon _) (fingerprint_ne_hash _)]
    have hdec : base58decode (base58encode ([0xed, 0x01] ++ kp.public_key)) =
        some ([0xed, 0x01] ++ kp.public_key) := by
      apply base58_roundtrip
      · intro x hx
        rcases List.mem_append.mp hx with h1 | h2
        · simp at h1; omega
        · exact hlt' x h2
      · simp
    simp only [DIDKey.fingerprint, DIDKey.codec, DIDKey.public_key, decodePipeline,
      stripZ, hdec]
    simp [from_public_key, ed25519_from_public_key, hlen]
  | X25519 kp =>
    simp only [validPublicKey, Bool.and_eq_true, decide_eq_true_eq,
      List.all_eq_true] at hval
    obtain ⟨hlen, hlt⟩ := hval
    have hlt' : ∀ x ∈ kp.public_key, x < 256 := fun x hx => by simpa using hlt x hx
    refine ⟨DIDKey.X25519 ⟨kp.public_key, none⟩, ?_, rfl, rfl⟩
    rw [tryFrom_didkey P _ (fingerprint_ne_colon _) (fingerprint_ne_hash _)]
    have hdec : base58decode (base58encode ([0xec, 0x01] ++ kp.public_key)) =
        some ([0xec, 0x01] ++ kp.public_key) := by
      apply base58_roundtrip
      · intro x hx
        rcases List.mem_append.mp hx with h1 | h2
        · simp at h1; omega
        · exact hlt' x h2
      · simp
    simp only [DIDKey.fingerprint, DIDKey.codec, DIDKey.public_key, decodePipeline,
      stripZ, hdec]
    simp [from_public_key, x25519_from_public_key, hlen]
  | P256 kp =>
    simp only [validPublicKey, Bool.and_eq_true, decide_eq_true_eq,
      List.all_eq_true] at hval
    obtain ⟨⟨⟨hlen, hhead⟩, hlt⟩, hcurve⟩ := hval
    have hlt' : ∀ x ∈ kp.public_key, x < 256 := fun x hx => by simpa using hlt x hx
    refine ⟨DIDKey.P256 ⟨kp.public_key, none⟩, ?_, rfl, rfl⟩
    rw [tryFrom_didkey P _ (fingerprint_ne_colon _) (fingerprint_ne_hash _)]
    have hdec : base58decode (base58encode ([0x12, 0x00, 0x01] ++ kp.public_key)) =
        some ([0x12, 0x00, 0x01] ++ kp.public_key) := by
      apply base58_roundtrip
      · intro x hx
        rcases List.mem_append.mp hx with h1 | h2
        · simp at h1; omega
        · exact hlt' x h2
      · simp
    simp only [DIDKey.fingerprint, DIDKey.codec, DIDKey.public_key, decodePipeline,
      stripZ, hdec]
    have hhead' : (kp.public_key.head?).getD 0 = 4 := by simpa using hhead
    simp [from_public_key, p256_from_public_key, sec1ShapeOk, hlen, hhead', hcurve]
  | Bls12381G1 kp => exact absurd rfl htag.1
  | Bls12381G2 kp => exact absurd rfl htag.2

/-- C1 witness: a concrete Ed25519 key round-trips through its fingerprint. -/
theorem c1_fingerprint_roundtrip_witness :
    ∃ k' : DIDKey,
      tryFrom trivialProvider
          ("did:key:".toList ++ (DIDKey.Ed25519 ⟨List.replicate 32 9, none⟩).fingerprint) =
        Outcome.ok k' ∧
      k'.tag = (DIDKey.Ed25519 ⟨List.replicate 32 9, none⟩).tag ∧
      k'.public_key = (DIDKey.Ed25519 ⟨List.replicate 32 9, none⟩).public_key :=
  c1_fingerprint_roundtrip trivialProvider (DIDKey.Ed25519 ⟨List.replicate 32 9, none⟩)
    (by decide) (by decide)

set_option maxRecDepth 8192 in
/-- C1 counterexample: resolving the fingerprint of a BLS12-381 G1 key does
not produce a key at all — it hits the `todo!()` arm of `from_public_key`
and aborts, so the claimed round trip fails for that supported tag. -/
theorem c1_counterexample :
    tryFrom trivialProvider
        ("did:key:".toList ++ (DIDKey.Bls12381G1 ⟨0x97 :: List.replicate 47 0x33, none⟩).fingerprint) =
      Outcome.abort "not yet implemented" := by decide

theorem tryFrom_didkey_twice (P : Provider) (t : List Char)
    (h1 : ∀ c ∈ t, c ≠ ':') (h2 : ∀ c ∈ t, c ≠ '#') :
    tryFrom P ("did:key:".toList ++ ("did:key:".toList ++ t)) = decodePipeline P t := by
  rw [show "did:key:".toList ++ ("did:key:".toList ++ t) =
      ['d', 'i', 'd'] ++ (':' :: ((['k', 'e', 'y', ':'] : List Char) ++
        (['d', 'i', 'd', ':', 'k', 'e', 'y', ':'] ++ t))) from rfl]
  have hp : ∀ c ∈ (['k', 'e', 'y', ':'] : List Char) ++
      (['d', 'i', 'd', ':', 'k', 'e', 'y', ':'] ++ t), c ≠ '#' := by
    intro c hc
    rcases List.mem_append.mp hc with h | h
    · simp at h
      rcases h with rfl | rfl | rfl | rfl <;> decide
    · rcases List.mem_append.mp h with h | h
      · simp at h
        rcases h with rfl | rfl | rfl | rfl | rfl | rfl | rfl | rfl <;> decide
      · exact h2 c h
  have hparse := urlParse_nofrag ['d', 'i', 'd']
    (['k', 'e', 'y', ':'] ++ (['d', 'i', 'd', ':', 'k', 'e', 'y', ':'] ++ t))
    (by decide) (by decide) (by decide) hp
  simp only [tryFrom, hparse]
  have htxt : resolveText ⟨['d', 'i', 'd'],
      ['k', 'e', 'y', ':'] ++ (['d', 'i', 'd', ':', 'k', 'e', 'y', ':'] ++ t), none⟩ = t := by
    have e : urlToString ⟨['d', 'i', 'd'],
        ['k', 'e', 'y', ':'] ++ (['d', 'i', 'd', ':', 'k', 'e', 'y', ':'] ++ t), none⟩ =
        'd' :: 'i' :: 'd' :: ':' :: 'k' :: 'e' :: 'y' :: ':' ::
          ('d' :: 'i' :: 'd' :: ':' :: 'k' :: 'e' :: 'y' :: ':' :: t) := by
      simp [urlToString]
    simp only [resolveText, e, dropKeyTag_start, dropKeyTag_no_colon t h1]
  rw [htxt]

/-- C6: resolving `did:key:T#T` (self-referential fragment) gives exactly the
same outcome as resolving `did:key:T`; when both produce keys they agree in
tag, public key bytes and fingerprint; and with a fragment present the
path-derived text is irrelevant (any path yields the fragment's result). -/
theorem c6_fragment_equivalence (P : Provider) (t : List Char)
    (h1 : ∀ c ∈ t, c ≠ ':') (h2 : ∀ c ∈ t, c ≠ '#') :
    tryFrom P ("did:key:".toList ++ (t ++ ('#' :: t))) =
      tryFrom P ("did:key:".toList ++ t) ∧
    (∀ k k', tryFrom P ("did:key:".toList ++ (t ++ ('#' :: t))) = Outcome.ok k →
      tryFrom P ("did:key:".toList ++ t) = Outcome.ok k' →
      k.tag = k'.tag ∧ k.public_key = k'.public_key ∧ k.fingerprint = k'.fingerprint) ∧
    (∀ u, (∀ c ∈ u, c ≠ '#') →
      tryFrom P ("did:key:".toList ++ (u ++ ('#' :: t))) =
        tryFrom P ("did:key:".toList ++ (t ++ ('#' :: t)))) := by
  have hmain : tryFrom P ("did:key:".toList ++ (t ++ ('#' :: t))) =
      tryFrom P ("did:key:".toList ++ t) := by
    rw [tryFrom_didkey_frag P t t h2, tryFrom_didkey P t h1 h2]
  refine ⟨hmain, ?_, ?_⟩
  · intro k k' hk hk'
    rw [hmain, hk'] at hk
    cases hk
    exact ⟨rfl, rfl, rfl⟩
  · intro u hu
    rw [tryFrom_didkey_frag P u t hu, tryFrom_didkey_frag P t t h2]

set_option maxRecDepth 8192 in
/-- C6 witness: the equivalence holds at the concrete fingerprint of an
Ed25519 key. -/
theorem c6_fragment_equivalence_witness :
    tryFrom trivialProvider
        ("did:key:".toList ++ ((DIDKey.Ed25519 ⟨List.replicate 32 5, none⟩).fingerprint ++
          ('#' :: (DIDKey.Ed25519 ⟨List.replicate 32 5, none⟩).fingerprint))) =
      tryFrom trivialProvider
        ("did:key:".toList ++ (DIDKey.Ed25519 ⟨List.replicate 32 5, none⟩).fingerprint) :=
  (c6_fragment_equivalence trivialProvider
    (DIDKey.Ed25519 ⟨List.replicate 32 5, none⟩).fingerprint
    (by decide) (by decide)).1

/-- C10: the resolver never checks that the URI uses the `did:key` method.
Any lowercase scheme and any path, with the encoded key text in the
fragment, resolves exactly as the well-formed `did:key:` form does; and
without a fragment every occurrence of `did:key:` is deleted from the
serialisation (not only a leading one), so a doubled `did:key:did:key:T`
also resolves like `did:key:T`. -/
theorem c10_no_method_validation (P : Provider) (s p t : List Char)
    (hs0 : s ≠ []) (hs1 : s.all isSchemeChar = true) (hs2 : (s.headD ' ').isLower = true)
    (hp : ∀ c ∈ p, c ≠ '#')
    (h1 : ∀ c ∈ t, c ≠ ':') (h2 : ∀ c ∈ t, c ≠ '#') :
    tryFrom P (s ++ (':' :: (p ++ ('#' :: t)))) = tryFrom P ("did:key:".toList ++ t) ∧
    tryFrom P ("did:key:".toList ++ ("did:key:".toList ++ t)) =
      tryFrom P ("did:key:".toList ++ t) := by
  constructor
  · rw [tryFrom_frag P s p t hs0 hs1 hs2 hp, tryFrom_didkey P t h1 h2]
  · rw [tryFrom_didkey_twice P t h1 h2, tryFrom_didkey P t h1 h2]

set_option maxRecDepth 8192 in
/-- C10 witness: a `http`-scheme URI with the encoded key in the fragment
resolves exactly like the `did:key:` form, as does a doubled `did:key:` tag. -/
theorem c10_no_method_validation_witness :
    tryFrom trivialProvider (['h', 't', 't', 'p'] ++ (':' :: ((['/', '/', 'e', 'x'] : List Char) ++
        ('#' :: (DIDKey.Ed25519 ⟨List.replicate 32 5, none⟩).fingerprint)))) =
      tryFrom trivialProvider
        ("did:key:".toList ++ (DIDKey.Ed25519 ⟨List.replicate 32 5, none⟩).fingerprint) ∧
    tryFrom trivialProvider ("did:key:".toList ++
        ("did:key:".toList ++ (DIDKey.Ed25519 ⟨List.replicate 32 5, none⟩).fingerprint)) =
      tryFrom trivialProvider
        ("did:key:".toList ++ (DIDKey.Ed25519 ⟨List.replicate 32 5, none⟩).fingerprint) :=
  c10_no_method_validation trivialProvider ['h', 't', 't', 'p'] ['/', '/', 'e', 'x']
    (DIDKey.Ed25519 ⟨List.replicate 32 5, none⟩).fingerprint
    (by decide) (by decide) (by decide) (by decide) (by decide) (by decide)

theorem base58decode_chars {t : List Char} {bs : Bytes} (h : base58decode t = some bs) :
    (∀ c ∈ t, c ≠ ':') ∧ (∀ c ∈ t, c ≠ '#') := by
  cases hb : b58Digits t with
  | none =>
    simp only [base58decode, hb] at h
    exact absurd h (by simp)
  | some ds =>
    constructor <;> intro c hc
    · exact b58DigitSome_ne_colon (b58Digits_mem hb c hc)
    · exact b58DigitSome_ne_hash (b58Digits_mem hb c hc)

/-- C9: when the text after the `z` marker base58-decodes to fewer than two
bytes, resolution hits the unchecked slice `pub_key[0..2]` and aborts with
an out-of-bounds panic — a reachable failure of the public resolve
interface that is not one of its reported error values. -/
theorem c9_short_payload_aborts (P : Provider) (t : List Char) (bs : Bytes)
    (hd : base58decode t = some bs) (hlen : bs.length < 2) :
    tryFrom P ("did:key:".toList ++ ('z' :: t)) = Outcome.abort "index out of bounds" := by
  obtain ⟨h1, h2⟩ := base58decode_chars hd
  have h1' : ∀ c ∈ 'z' :: t, c ≠ ':' := by
    intro c hc
    rcases List.mem_cons.mp hc with rfl | h
    · decide
    · exact h1 c h
  have h2' : ∀ c ∈ 'z' :: t, c ≠ '#' := by
    intro c hc
    rcases List.mem_cons.mp hc with rfl | h
    · decide
    · exact h2 c h
  rw [tryFrom_didkey P _ h1' h2']
  simp only [decodePipeline, stripZ, hd]
  rw [if_pos hlen]

/-- C9 witness: `did:key:z1` decodes to the single byte `0x00` and aborts. -/
theorem c9_short_payload_aborts_witness :
    tryFrom trivialProvider ("did:key:".toList ++ ('z' :: ['1'])) =
      Outcome.abort "index out of bounds" :=
  c9_short_payload_aborts trivialProvider ['1'] [0] (by decide) (by decide)

/-- C2 (amended): a decodable payload of at least two bytes whose leading
pair matches none of the five codec table entries makes resolution fail
without constructing a key, but through the
`unimplemented!("unsupported key type")` panic, not through a returned
error value. -/
theorem c2_unsupported_panics (P : Provider) (t : List Char) (bs : Bytes)
    (hd : base58decode t = some bs) (hsz : 2 ≤ bs.length)
    (hn : ¬((bs.headD 0 = 0xed ∧ bs.tail.headD 0 = 0x01) ∨
      (bs.headD 0 = 0xec ∧ bs.tail.headD 0 = 0x01) ∨
      (bs.headD 0 = 0xea ∧ bs.tail.headD 0 = 0x01) ∨
      (bs.headD 0 = 0xeb ∧ bs.tail.headD 0 = 0x01) ∨
      (bs.headD 0 = 0x12 ∧ bs.tail.headD 0 = 0x00))) :
    tryFrom P ("did:key:".toList ++ ('z' :: t)) =
      Outcome.abort "not implemented: unsupported key type" := by
  obtain ⟨h1, h2⟩ := base58decode_chars hd
  have h1' : ∀ c ∈ 'z' :: t, c ≠ ':' := by
    intro c hc
    rcases List.mem_cons.mp hc with rfl | h
    · decide
    · exact h1 c h
  have h2' : ∀ c ∈ 'z' :: t, c ≠ '#' := by
    intro c hc
    rcases List.mem_cons.mp hc with rfl | h
    · decide
    · exact h2 c h
  rw [tryFrom_didkey P _ h1' h2']
  simp only [decodePipeline, stripZ, hd]
  rw [if_neg (by omega),
    if_neg (fun h => hn (Or.inl h)),
    if_neg (fun h => hn (Or.inr (Or.inl h))),
    if_neg (fun h => hn (Or.inr (Or.inr (Or.inl h)))),
    if_neg (fun h => hn (Or.inr (Or.inr (Or.inr (Or.inl h))))),
    if_neg (fun h => hn (Or.inr (Or.inr (Or.inr (Or.inr h)))))]

/-- C2 counterexample: at the concrete unsupported payload `0xff 0x01`,
resolution is a panic (an abort), not a returned "unsupported key type" /
"invalid URI data" error value, refuting the claim as stated. -/
theorem c2_counterexample :
    tryFrom trivialProvider ("did:key:".toList ++ ('z' :: base58encode [0xff, 0x01])) =
      Outcome.abort "not implemented: unsupported key type" := by decide

/-- C2 witness: the amended statement applied at the unsupported payload
`0x99 0x42`. -/
theorem c2_unsupported_panics_witness :
    tryFrom trivialProvider ("did:key:".toList ++ ('z' :: base58encode [0x99, 0x42])) =
      Outcome.abort "not implemented: unsupported key type" :=
  c2_unsupported_panics trivialProvider (base58encode [0x99, 0x42]) [0x99, 0x42]
    (by decide) (by decide) (by decide)

/-- C7 (amended): the encoder writes the exact per-algorithm codec bytes
(two for Ed25519/X25519/BLS, three for P-256), and the decoder consumes two
bytes for the two-byte codecs and three for P-256; but for P-256 it matches
only the two bytes `0x12 0x00` of `pub_key[0..2]` and never inspects the
third byte, so a payload `0x12 0x00 X` decodes as a valid P-256 key for
every third byte `X`, not only `0x01`. -/
theorem c7_p256_third_byte_ignored (P : Provider) (t : List Char) (third : Nat) (rest : Bytes)
    (hd : base58decode t = some ([0x12, 0x00] ++ (third :: rest)))
    (hlen : rest.length = 65) (hhead : rest.headD 0 = 4)
    (hcurve : P.p256PointOnCurve rest = true) :
    tryFrom P ("did:key:".toList ++ ('z' :: t)) = Outcome.ok (DIDKey.P256 ⟨rest, none⟩) := by
  obtain ⟨h1, h2⟩ := base58decode_chars hd
  have h1' : ∀ c ∈ 'z' :: t, c ≠ ':' := by
    intro c hc
    rcases List.mem_cons.mp hc with rfl | h
    · decide
    · exact h1 c h
  have h2' : ∀ c ∈ 'z' :: t, c ≠ '#' := by
    intro c hc
    rcases List.mem_cons.mp hc with rfl | h
    · decide
    · exact h2 c h
  rw [tryFrom_didkey P _ h1' h2']
  simp only [decodePipeline, stripZ, hd]
  have hhead' : (rest.head?).getD 0 = 4 := by simpa using hhead
  simp [from_public_key, p256_from_public_key, sec1ShapeOk, hlen, hhead', hcurve]

set_option maxRecDepth 16384 in
/-- C7 counterexample: a payload starting `0x12 0x00 0x02` — third byte not
`0x01` — is nevertheless decoded as a valid P-256 key (here carrying the
NIST P-256 base point), refuting the claim that such payloads are rejected. -/
theorem c7_counterexample :
    tryFrom trivialProvider
        ("did:key:".toList ++ ('z' :: base58encode ([0x12, 0x00, 0x02] ++ p256Gen))) =
      Outcome.ok (DIDKey.P256 ⟨p256Gen, none⟩) := by decide

set_option maxRecDepth 16384 in
/-- C7 witness: the amended statement applied with third byte `0x05`. -/
theorem c7_p256_third_byte_ignored_witness :
    tryFrom trivialProvider
        ("did:key:".toList ++ ('z' :: base58encode ([0x12, 0x00, 0x05] ++ p256Gen))) =
      Outcome.ok (DIDKey.P256 ⟨p256Gen, none⟩) :=
  c7_p256_third_byte_ignored trivialProvider (base58encode ([0x12, 0x00, 0x05] ++ p256Gen))
    0x05 p256Gen (by decide) (by decide) (by decide) (by decide)

/-- C3 (code defect): `Ecdsa::verify` for P-256 runs
`Signature::try_from(signature).unwrap()`, so malformed signature bytes —
here the empty signature against a genuine P-256 public key — make `verify`
panic instead of returning the claimed failure value.  The spec itself
flags this panic as a latent defect of the adapter. -/
theorem c3_p256_verify_panics :
    DIDKey.verify trivialProvider (DIDKey.P256 ⟨p256Gen, none⟩) (Payload.Buffer [1, 2, 3]) [] =
      Outcome.abort "called `Result::unwrap()` on an `Err` value" := by decide

/-- C4 (amended): signing with a key built from public bytes only does fail
— no signature is ever produced and no wrong result returned — but via a
deliberate panic (`panic!("secret key not found")` in the P-256 adapter,
the catch-all `unimplemented!()` for X25519), an abort rather than a
reported error value. -/
theorem c4_public_only_sign_aborts (P : Provider) (pub payload : Bytes) :
    DIDKey.sign P (DIDKey.P256 ⟨pub, none⟩) (Payload.Buffer payload) =
      Outcome.abort "secret key not found" ∧
    DIDKey.sign P (DIDKey.X25519 ⟨pub, none⟩) (Payload.Buffer payload) =
      Outcome.abort "not implemented" := ⟨rfl, rfl⟩

/-- C4 counterexample: at a concrete public-only P-256 key, `sign` aborts
with the capability message instead of returning a reported failure,
refuting the claim as stated. -/
theorem c4_counterexample :
    DIDKey.sign trivialProvider (DIDKey.P256 ⟨p256Gen, none⟩) (Payload.Buffer [1, 2, 3]) =
      Outcome.abort "secret key not found" := by decide

/-- C5 (code defect): `generate_seed` routes every seed whose length is not
32 — including nonempty wrong-length seeds — to the random branch, because
the guard `is_empty() || len() != 32` subsumes the empty check; the
`Err("invalid seed size")` branch is unreachable.  A 16-byte seed therefore
silently yields a random key instead of the claimed seed-validation error,
while the 32-byte deterministic case and the empty random case behave as
claimed. -/
theorem c5_wrong_length_seed_not_error :
    generate_seed (List.replicate 32 7) (List.range 16) = Outcome.ok (List.replicate 32 7) ∧
    generate_seed (List.replicate 32 7) [] = Outcome.ok (List.replicate 32 7) ∧
    generate_seed (List.replicate 32 7) (List.range 32) = Outcome.ok (List.range 32) := by
  refine ⟨by decide, by decide, by decide⟩

/-- C8 (amended): `key_exchange` on any pair that is not X25519×X25519 never
silently succeeds, but it fails by panicking — `todo!()` ("not yet
implemented") for P-256×P-256 and the catch-all `unimplemented!()` for every
cross-algorithm pair — rather than by reporting an error value to the
caller. -/
theorem c8_exchange_aborts (P : Provider) (k1 k2 : DIDKey)
    (h : ¬(k1.tag = DIDKeyType.X25519 ∧ k2.tag = DIDKeyType.X25519)) :
    DIDKey.key_exchange P k1 k2 =
      Outcome.abort (if k1.tag = DIDKeyType.P256 ∧ k2.tag = DIDKeyType.P256
        then "not yet implemented" else "not implemented") := by
  cases k1 <;> cases k2 <;> simp_all [DIDKey.key_exchange, DIDKey.tag]

/-- C8 witness: the amended statement applied to an X25519×P-256 pair. -/
theorem c8_exchange_aborts_witness :
    DIDKey.key_exchange trivialProvider
        (DIDKey.X25519 ⟨List.replicate 32 1, some (List.replicate 32 2)⟩)
        (DIDKey.P256 ⟨p256Gen, none⟩) =
      Outcome.abort
        (if (DIDKey.X25519 ⟨List.replicate 32 1, some (List.replicate 32 2)⟩).tag =
            DIDKeyType.P256 ∧ (DIDKey.P256 ⟨p256Gen, none⟩).tag = DIDKeyType.P256
          then "not yet implemented" else "not implemented") :=
  c8_exchange_aborts trivialProvider
    (DIDKey.X25519 ⟨List.replicate 32 1, some (List.replicate 32 2)⟩)
    (DIDKey.P256 ⟨p256Gen, none⟩) (by decide)

/-- C8 counterexample: a concrete X25519×P-256 pair (own secret present)
makes `key_exchange` panic — a crash, not a failure reported to the caller —
refuting the claim as stated. -/
theorem c8_counterexample :
    DIDKey.key_exchange trivialProvider
        (DIDKey.X25519 ⟨List.replicate 32 1, some (List.replicate 32 2)⟩)
        (DIDKey.P256 ⟨p256Gen, none⟩) =
      Outcome.abort "not implemented" := by decide
